import Mathlib

/-
Verification development for the RadQueue longitudinal EMR generator.

The definitions below are a shallow embedding of the Python sources:
  src/clinical_knowledge.py   (flag_lab_value, calculate_gfr, evolve_lab_value,
                               NORMAL_LAB_RANGES, CONDITION_PROGRESSIONS)
  src/longitudinal_generator.py (_build_timeline, the running problem-list /
                               medication state, _generate_current_labs,
                               the derived eGFR results, chart assembly)
  src/emr_narrative.py        (_trim_to_last_sentence)

Modelling conventions:
  * Clinical float values are modelled as rationals (ℚ) where the code is
    decidable arithmetic, and as reals (ℝ) where the code uses fractional
    powers (the CKD-EPI equation).
  * Python round(x, 1) (round-half-to-even) is modelled by round1 below.
  * datetimes are modelled as whole minutes (ℤ); a day has 1440 minutes.
    Python floor division and timedelta.days are Int.ediv (divisors are
    positive throughout).
  * random.Random draws are modelled as explicit oracle inputs (one field
    per draw site, indexed by call position); theorems take the ranges of
    the corresponding randint/uniform calls as hypotheses.
  * Python str is modelled as String, or List Char for the
    character-indexed sentence-trimming helper.
-/

/-- Round-half-to-even to an integer: the model of Python round(x). -/
def roundHalfEven {K : Type} [LinearOrderedField K] [FloorRing K] (x : K) : ℤ :=
  if Int.fract x < 1 / 2 then ⌊x⌋
  else if 1 / 2 < Int.fract x then ⌊x⌋ + 1
  else if ⌊x⌋ % 2 = 0 then ⌊x⌋ else ⌊x⌋ + 1

/-- Model of Python round(x, 1): round to one decimal place. -/
def round1 {K : Type} [LinearOrderedField K] [FloorRing K] (x : K) : K :=
  (roundHalfEven (10 * x) : K) / 10

/-- A lab reference range: the shape of a NORMAL_LAB_RANGES entry
(clinical_knowledge.py); unit and loinc are carried separately where needed. -/
structure LabRef (K : Type) where
  low : K
  high : K
  critical_low : Option K
  critical_high : Option K
deriving DecidableEq

/-- Test of Python "critical_low is not None and value < critical_low". -/
def critLowBreached {K : Type} [LinearOrder K] (cl : Option K) (v : K) : Bool :=
  match cl with
  | none => false
  | some c => decide (v < c)

/-- Test of Python "critical_high is not None and value > critical_high". -/
def critHighBreached {K : Type} [LinearOrder K] (ch : Option K) (v : K) : Bool :=
  match ch with
  | none => false
  | some c => decide (c < v)

/-- Embedding of clinical_knowledge.flag_lab_value (lines 886-907). -/
def flag_lab_value {K : Type} [LinearOrder K] (value : K) (reference : Option (LabRef K)) :
    Option String :=
  match reference with
  | none => none
  | some ref =>
    if critLowBreached ref.critical_low value then some "Critical"
    else if critHighBreached ref.critical_high value then some "Critical"
    else if value < ref.low then some "L"
    else if ref.high < value then some "H"
    else none

/-- The flag function as worded by the spec (section 4.1): Critical when a
critical bound exists and the value breaches it, else L below low, H above
high, else None. Stated independently of the source for comparison. -/
def flagSpec {K : Type} [LinearOrder K] (value : K) (ref : LabRef K) : Option String :=
  if (ref.critical_low.any fun c => decide (value < c)) ||
      (ref.critical_high.any fun c => decide (c < value)) then some "Critical"
  else if value < ref.low then some "L"
  else if ref.high < value then some "H"
  else none

/-- ASCII lower-casing of one character, as Python str.lower acts on the
ASCII strings used for sex. -/
def lowerChar (c : Char) : Char :=
  if c.isUpper then Char.ofNat (c.toNat + 32) else c

/-- Model of Python sex.lower() for the ASCII sex strings. -/
def lowerStr (s : String) : String :=
  ⟨s.data.map lowerChar⟩

/-- Embedding of clinical_knowledge.calculate_gfr (lines 910-937), the
race-free CKD-EPI 2021 equation. Python ** with int age is the monoid power;
the fractional exponents are real rpow. -/
noncomputable def calculate_gfr (creatinine : ℝ) (age : ℕ) (sex : String) : ℝ :=
  let kappa : ℝ := if lowerStr sex = "female" then 0.7 else 0.9
  let alpha : ℝ := if lowerStr sex = "female" then -0.241 else -0.302
  let sex_factor : ℝ := if lowerStr sex = "female" then 1.012 else 1.0
  let crk : ℝ := creatinine / kappa
  let minr : ℝ := min crk 1.0
  let maxr : ℝ := max crk 1.0
  round1 (142 * minr ^ alpha * maxr ^ (-1.200 : ℝ) * (0.9938 : ℝ) ^ age * sex_factor)

/-- The CKD-EPI 2021 equation as worded by the spec (section 4.1), with the
per-sex parameter triple (kappa, alpha, factor) and the stated formula,
rounded to one decimal. Stated independently of the source for comparison. -/
noncomputable def gfrSpec (creatinine : ℝ) (age : ℕ) (sex : String) : ℝ :=
  let p : ℝ × ℝ × ℝ :=
    if lowerStr sex = "female" then (0.7, -0.241, 1.012) else (0.9, -0.302, 1.0)
  round1 (142 * (min (creatinine / p.1) 1) ^ p.2.1 *
    (max (creatinine / p.1) 1) ^ (-1.200 : ℝ) * (0.9938 : ℝ) ^ age * p.2.2)

/-- Embedding of clinical_knowledge.evolve_lab_value (lines 2342-2379).
The rng.gauss(0, spread) draw is modelled by the explicit oracle input
noise; the code adds it only when the spread is positive. -/
def evolve_lab_value (base_value target_value : ℚ) (step total_steps : ℤ)
    (noise_factor : ℚ) (noise : ℚ) : ℚ :=
  if total_steps ≤ 1 then round1 target_value
  else
    let progress : ℚ := (step : ℚ) / ((total_steps : ℚ) - 1)
    let value : ℚ := base_value + (target_value - base_value) * progress
    let spread : ℚ := |target_value - base_value| * noise_factor
    let value2 : ℚ := if 0 < spread then value + noise else value
    round1 value2

/-- Linear interpolation as worded by the spec (section 4.1):
base + (target - base) * step / (totalSteps - 1). -/
def lerpSpec (base_value target_value : ℚ) (step total_steps : ℤ) : ℚ :=
  base_value + (target_value - base_value) * ((step : ℚ) / ((total_steps : ℚ) - 1))

/-- The ASCII whitespace stripped by Python str.rstrip(). -/
def pythonSpace (c : Char) : Bool :=
  c ∈ [' ', '\t', '\n', Char.ofNat 11, Char.ofNat 12, '\r']

/-- Model of Python text.rstrip(). -/
def rstripPy (l : List Char) : List Char :=
  (l.reverse.dropWhile pythonSpace).reverse

/-- Sentence-ending punctuation checked by _trim_to_last_sentence. -/
def sentencePunct (c : Char) : Bool :=
  c ∈ ['.', '!', '?']

/-- Model of Python text.rfind(c): index of the last occurrence, or -1. -/
def rfind : List Char → Char → ℤ
  | [], _ => -1
  | c :: rest, target =>
    let r := rfind rest target
    if 0 ≤ r then r + 1
    else if c = target then 0 else -1

/-- Embedding of emr_narrative._trim_to_last_sentence (lines 466-483). -/
def trim_to_last_sentence (text : List Char) : List Char :=
  if text = [] then text
  else if (rstripPy text).getLast?.any sentencePunct then text
  else
    let last_boundary : ℤ :=
      max (max (rfind text '.') (rfind text '!')) (rfind text '?')
    if 0 < last_boundary then text.take (last_boundary.toNat + 1) else text

/-- One progression-template stage: its dating fields year_offset and
month_offset (month_offset defaults to 0 in the source dicts). The other
stage fields (diagnoses, medications, lab targets) do not affect dating. -/
structure Stage where
  year_offset : ℤ
  month_offset : ℤ
deriving DecidableEq

/-- The dating data of clinical_knowledge.CONDITION_PROGRESSIONS (lines
1085-2030): for each template key, the (year_offset, month_offset) of its
stages, in source order. -/
def CONDITION_PROGRESSIONS : List (String × List Stage) :=
  [("metabolic_syndrome", [⟨-5, 0⟩, ⟨-4, 0⟩, ⟨-3, 0⟩, ⟨-2, 0⟩, ⟨-1, 0⟩]),
   ("cholelithiasis_to_cholecystitis", [⟨-2, 0⟩, ⟨-1, 0⟩]),
   ("chronic_liver_disease", [⟨-5, 0⟩, ⟨-4, 0⟩, ⟨-3, 0⟩]),
   ("ckd_progression", [⟨-4, 0⟩, ⟨-2, 0⟩, ⟨-1, 0⟩]),
   ("peptic_ulcer_disease", [⟨-3, 0⟩, ⟨-1, 0⟩]),
   ("copd_progression", [⟨-4, 0⟩, ⟨-2, 0⟩]),
   ("chf_progression", [⟨-3, 0⟩, ⟨-1, 0⟩]),
   ("pregnancy", [⟨0, -6⟩, ⟨0, -3⟩]),
   ("atrial_fibrillation", [⟨-3, 0⟩, ⟨-1, 0⟩]),
   ("gerd_standalone", [⟨-2, 0⟩]),
   ("hypothyroidism_standalone", [⟨-3, 0⟩, ⟨-2, 0⟩]),
   ("cad_progression", [⟨-5, 0⟩, ⟨-3, 0⟩, ⟨-1, 0⟩]),
   ("asthma_standalone", [⟨-3, 0⟩, ⟨-1, 0⟩]),
   ("osa_standalone", [⟨-2, 0⟩, ⟨-1, 0⟩]),
   ("anxiety_standalone", [⟨-2, 0⟩, ⟨-1, 0⟩]),
   ("depression_standalone", [⟨-3, 0⟩, ⟨-1, 0⟩]),
   ("migraine_standalone", [⟨-3, 0⟩, ⟨-2, 0⟩]),
   ("osteoarthritis_standalone", [⟨-3, 0⟩, ⟨-1, 0⟩]),
   ("nafld_standalone", [⟨-3, 0⟩, ⟨-1, 0⟩]),
   ("dvt_pe_history", [⟨-2, 0⟩, ⟨-1, 0⟩]),
   ("lupus_standalone", [⟨-3, 0⟩, ⟨-2, 0⟩]),
   ("kidney_stones_history", [⟨-2, 0⟩]),
   ("pad_standalone", [⟨-3, 0⟩, ⟨-1, 0⟩]),
   ("bph_standalone", [⟨-2, 0⟩]),
   ("ibs_standalone", [⟨-2, 0⟩]),
   ("gout_standalone", [⟨-2, 0⟩]),
   ("diverticulosis_standalone", [⟨-2, 0⟩]),
   ("fibromyalgia_standalone", [⟨-2, 0⟩]),
   ("iron_deficiency_anemia", [⟨-2, 0⟩]),
   ("osteoporosis_standalone", [⟨-2, 0⟩]),
   ("alcohol_use_disorder", [⟨-2, 0⟩]),
   ("prediabetes_standalone", [⟨-2, 0⟩]),
   ("pcos_standalone", [⟨-2, 0⟩]),
   ("dementia_standalone", [⟨-3, 0⟩, ⟨-1, 0⟩])]

/-- A timeline event as used by _build_timeline: its source tag, its date
(minutes), and the _is_current marker. The diff payload (diagnoses,
medications, note template) is carried separately by the state tracker. -/
structure TEvent where
  source : String
  date : ℤ
  isCurrent : Bool
deriving DecidableEq

/-- Day number of a minute timestamp (floor division, as Python
datetime.date; Int division by a positive constant is Euclidean = floor). -/
def dayOf (t : ℤ) : ℤ := t / 1440

/-- Model of datetime.replace(hour=h, minute=m, second=0, microsecond=0). -/
def replaceHM (t h m : ℤ) : ℤ := dayOf t * 1440 + h * 60 + m

/-- Model of (t1 - t2).days for whole-day differences (floor division, as
Python timedelta.days). -/
def daysBetween (t1 t2 : ℤ) : ℤ := (t1 - t2) / 1440

/-- Pair each list element with its index, starting at i. -/
def withIdx {A : Type} : ℕ → List A → List (ℕ × A)
  | _, [] => []
  | i, a :: as => (i, a) :: withIdx (i + 1) as

/-- The random draws consumed by _build_timeline, one oracle field per
draw site (indexed by call position where the site is in a loop). -/
structure TimelineRand where
  stageJitter : ℕ → ℤ
  annualJitter : ℕ → ℤ
  currentDaysAgo : ℤ
  currentHour : ℤ
  currentMinute : ℤ
  eventHour : ℕ → ℤ
  eventMinute : ℕ → ℤ

/-- Stage expansion of _build_timeline (lines 415-431): every stage of every
matched template becomes an event dated
now + (year_offset * 365 + month_offset * 30 + jitter) days, tagged with its
template key. The keyword scan that picks the matched templates (a subset of
CONDITION_PROGRESSIONS, each template expanded at most once) is quantified
over: matched is an input. -/
def stageEvents (now : ℤ) (matched : List (String × List Stage)) (jit : ℕ → ℤ) :
    List TEvent :=
  (withIdx 0 ((matched.map fun p => p.2.map fun s => (p.1, s)).flatten)).map
    fun q =>
      ⟨q.2.1,
       now + (q.2.2.year_offset * 365 + q.2.2.month_offset * 30 + jit q.1) * 1440,
       false⟩

/-- Earliest event date: min(e["_date"] for e in events); 0 on []. -/
def earliestDate (evs : List TEvent) : ℤ :=
  match evs with
  | [] => 0
  | e :: rest => rest.foldl (fun a b => min a b.date) e.date

/-- Fill-window length of _build_timeline (lines 434-438):
max(1, (now - earliest).days // 365) when any event exists, else 3. -/
def yearsBack (now : ℤ) (evs : List TEvent) : ℕ :=
  if evs = [] then 3
  else (max 1 (daysBetween now (earliestDate evs) / 365)).toNat

/-- The annual-physical fill loop of _build_timeline (lines 440-453), for y
descending from yearsBack to 1: a candidate dated now - (y*365 + jitter) days
is appended unless an existing event is within 60 days of it. -/
def annualPass (now : ℤ) (aj : ℕ → ℤ) : ℕ → List TEvent → List TEvent
  | 0, evs => evs
  | Nat.succ y, evs =>
    let aDate : ℤ := now - (((y : ℤ) + 1) * 365 + aj (y + 1)) * 1440
    let evs2 :=
      if evs.any fun e => (daysBetween e.date aDate).natAbs < 60 then evs
      else evs ++ [⟨"annual", aDate, false⟩]
    annualPass now aj y evs2

/-- The current/presenting event of _build_timeline (lines 469-488): dated
now - randint(1, 14) days with a setting-dependent hour draw (every one of
the settings draws an hour in [0, 23] and a minute in [0, 59], which is how
the draws are constrained in the theorems). -/
def currentEvent (now : ℤ) (r : TimelineRand) : TEvent :=
  ⟨"current", replaceHM (now - r.currentDaysAgo * 1440) r.currentHour r.currentMinute, true⟩

/-- The hour-assignment loop of _build_timeline (lines 491-504): every
non-current event has its hour and minute replaced by a draw from the
encounter-type-dependent range (each such range lies inside [0, 23] hours,
[0, 59] minutes); the current event keeps the hour set at its creation. -/
def assignHours (r : TimelineRand) (evs : List TEvent) : List TEvent :=
  (withIdx 0 evs).map fun q =>
    if q.2.isCurrent then q.2
    else ⟨q.2.source, replaceHM q.2.date (r.eventHour q.1) (r.eventMinute q.1), false⟩

/-- Sort key of _build_timeline line 507: ascending by date. -/
def eventLE (a b : TEvent) : Prop := a.date ≤ b.date

instance : DecidableRel eventLE := fun a b => Int.decLe a.date b.date

instance : IsTotal TEvent eventLE := ⟨fun a b => Int.le_total a.date b.date⟩

instance : IsTrans TEvent eventLE := ⟨fun _ _ _ h1 h2 => le_trans h1 h2⟩

/-- Embedding of _build_timeline (lines 396-509): expand matched template
stages, fill with annual physicals, append the current event, assign
clinically-plausible hours, and sort ascending by timestamp. The final sort
is Python list.sort (a stable sort on the date key), modelled by the stable
insertionSort on the same key, which computes the same list. -/
def build_timeline (now : ℤ) (matched : List (String × List Stage))
    (r : TimelineRand) : List TEvent :=
  let evs := stageEvents now matched r.stageJitter
  let evs2 := annualPass now r.annualJitter (yearsBack now evs) evs
  let evs3 := evs2 ++ [currentEvent now r]
  let evs4 := assignHours r evs3
  List.insertionSort eventLE evs4

/-- A concrete draw assignment for the timeline oracle: every jitter 0,
current encounter 1 day back at 08:00, every assigned hour 08:00 (all inside
the ranges the source draws from). -/
def timelineRandC : TimelineRand :=
  ⟨fun _ => 0, fun _ => 0, 1, 8, 0, fun _ => 8, fun _ => 0⟩

/-- Embedding of emr_models.Medication. Python falsy rxnorm_code (None) is
modelled by none. -/
structure Medication where
  name : String
  dose : String
  route : String
  frequency : String
  indication : Option String
  rxnorm_code : Option String
deriving DecidableEq

/-- Embedding of emr_models.ProblemListEntry (the fields written by the
generator); date_added holds the admission datetime in minutes. -/
structure ProblemListEntry where
  condition : String
  icd10 : Option String
  date_added : ℤ
  status : String
  added_encounter_id : String
deriving DecidableEq

/-- Embedding of emr_models.MedicationChange. -/
structure MedicationChange where
  medication : Medication
  change_type : String
  change_date : ℤ
  encounter_id : String
  reason : Option String
  previous_dose : Option String
deriving DecidableEq

/-- A new_diagnoses element of a timeline event. -/
structure DxEvent where
  condition : String
  icd10 : Option String
deriving DecidableEq

/-- A medication_changes element of a timeline event; new_dose none models
an absent "new_dose" key (change.get falls back to the current dose). -/
structure MedChangeEvent where
  medication_name : String
  new_dose : Option String
  change_type : String
  reason : Option String
deriving DecidableEq

/-- The state-relevant diff of one non-current timeline event, together with
the admission datetime and encounter id of the record generated for it. -/
structure StateEvent where
  date : ℤ
  encounter_id : String
  new_diagnoses : List DxEvent
  new_medications : List Medication
  medication_changes : List MedChangeEvent
deriving DecidableEq

/-- The running chart state threaded across the timeline by
generate_from_parsed (problem list, current medications, audit log). -/
structure ChartState where
  problem_list : List ProblemListEntry
  current_meds : List Medication
  medication_history : List MedicationChange
deriving DecidableEq

/-- Embedding of the new_diagnoses handling of generate_from_parsed (lines
288-297): append an Active entry unless a problem with that condition name
is already present. -/
def addDiagnosis (st : ChartState) (date : ℤ) (eid : String) (dx : DxEvent) : ChartState :=
  if st.problem_list.any fun p => p.condition = dx.condition then st
  else
    ⟨st.problem_list ++ [⟨dx.condition, dx.icd10, date, "Active", eid⟩],
     st.current_meds, st.medication_history⟩

/-- Embedding of the new_medications handling of generate_from_parsed (lines
299-312): fill a missing RxNorm code from the knowledge base (modelled by
the lookup function rx), then append the medication and a Started audit
entry unless a medication with that name is already present. -/
def startMedication (rx : String → Option String) (st : ChartState) (date : ℤ)
    (eid : String) (m : Medication) : ChartState :=
  let med := if m.rxnorm_code = none then
      ⟨m.name, m.dose, m.route, m.frequency, m.indication, rx m.name⟩ else m
  if st.current_meds.any fun cm => cm.name = med.name then st
  else
    ⟨st.problem_list, st.current_meds ++ [med],
     st.medication_history ++ [⟨med, "Started", date, eid, med.indication, none⟩]⟩

/-- Embedding of the medication_changes handling of generate_from_parsed
(lines 314-331): every current medication whose name matches the change has
its dose overwritten with the change's new_dose (kept when absent), and one
audit entry per match is appended, recording the previous dose, the new
dose, the change type and the optional reason. No match: nothing happens. -/
def applyMedChange (rx : String → Option String) (st : ChartState) (date : ℤ)
    (eid : String) (c : MedChangeEvent) : ChartState :=
  ⟨st.problem_list,
   st.current_meds.map fun m =>
     if m.name = c.medication_name then
       ⟨m.name, c.new_dose.getD m.dose, m.route, m.frequency, m.indication, m.rxnorm_code⟩
     else m,
   st.medication_history ++
     (st.current_meds.filter fun m => m.name = c.medication_name).map fun m =>
       ⟨⟨m.name, c.new_dose.getD m.dose, m.route, m.frequency, none,
         if m.rxnorm_code = none then rx m.name else m.rxnorm_code⟩,
        c.change_type, date, eid, c.reason, some m.dose⟩⟩

/-- State update for one non-current timeline event: diagnoses, then new
medications, then medication changes, in source order. -/
def processEvent (rx : String → Option String) (st : ChartState) (ev : StateEvent) :
    ChartState :=
  let st1 := ev.new_diagnoses.foldl (fun s dx => addDiagnosis s ev.date ev.encounter_id dx) st
  let st2 := ev.new_medications.foldl
    (fun s m => startMedication rx s ev.date ev.encounter_id m) st1
  ev.medication_changes.foldl (fun s c => applyMedChange rx s ev.date ev.encounter_id c) st2

/-- The whole state-tracking pass of generate_from_parsed: fold the
non-current timeline events over the empty initial state (problem_list,
current_meds and medication_history all start as empty lists). -/
def runTimelineState (rx : String → Option String) (events : List StateEvent) : ChartState :=
  events.foldl (processEvent rx) ⟨[], [], []⟩

/-- A lab panel reduced to the data _generate_current_labs branches on: its
panel_name and the test_name list of its results. -/
structure LabPanelM where
  panel_name : String
  resultNames : List String
deriving DecidableEq

/-- The inputs _generate_current_labs (lines 1102-1437) branches on. The
Boolean fields record the outcome of each scan the source performs: presence
of a lab_data key, the diagnosis / setting / prior-condition keyword scans,
the rng.random() < 0.6 draw, and whether each NORMAL_LAB_RANGES lookup
succeeds. The result names of the CBC and CMP+LFT panels are carried
abstractly (the source only ever scans them for "Lipase" and "Lactate"). -/
structure CurrentLabCtx where
  hasLipaseKey : Bool
  hasLactateKey : Bool
  hasTroponinKey : Bool
  hasInrKey : Bool
  acuity : String
  dxKeywordLiver : Bool
  dxKeywordClot : Bool
  edOrInpatient : Bool
  pmhxDiabetes : Bool
  pmhxHeartFailure : Bool
  pmhxThyroid : Bool
  hba1cDraw : Bool
  cbcNames : List String
  cmpNames : List String
  refInr : Bool
  refPt : Bool
  refPtt : Bool
  refCrp : Bool
  refEsr : Bool
  refProcalcitonin : Bool
  refAmylase : Bool
  refLactate : Bool
  refDdimer : Bool
  refMagnesium : Bool
  refHba1c : Bool
  refBnp : Bool
  refTsh : Bool

/-- Append a panel when the guard holds (the source's "if cond:
panels.append(...)" shape). -/
def appendPanel (panels : List LabPanelM) (cond : Bool) (p : LabPanelM) :
    List LabPanelM :=
  if cond then panels ++ [p] else panels

/-- Embedding of the panel-construction control flow of
_generate_current_labs (lines 1102-1437): CBC and CMP+LFT always; Lipase,
Lactate and Cardiac Markers when the corresponding lab_data key is present;
then the context-driven injections (Coagulation, Inflammatory Markers,
Amylase, a second Lactate rule, D-dimer, Magnesium, HbA1c, BNP, TSH), where
added tracks the source's added_panels set (only the first three injections
update it, exactly as in the source). -/
def currentLabPanels (ctx : CurrentLabCtx) : List LabPanelM :=
  let panels : List LabPanelM := [⟨"CBC", ctx.cbcNames⟩, ⟨"CMP + LFT", ctx.cmpNames⟩]
  let panels := appendPanel panels ctx.hasLipaseKey ⟨"Lipase", ["Lipase"]⟩
  let panels := appendPanel panels ctx.hasLactateKey ⟨"Lactate", ["Lactate"]⟩
  let panels := appendPanel panels ctx.hasTroponinKey ⟨"Cardiac Markers", ["Troponin I"]⟩
  let added := panels.map LabPanelM.panel_name
  let acuitySepticShock := ctx.acuity == "septic" || ctx.acuity == "shock"
  let needs_coags := ctx.edOrInpatient &&
    (ctx.dxKeywordLiver || ctx.hasInrKey || acuitySepticShock)
  let coagNames := (if ctx.refInr then ["INR"] else []) ++
    (if ctx.refPt then ["PT"] else []) ++ (if ctx.refPtt then ["PTT"] else [])
  let coagCond := needs_coags && !(added.contains "Coagulation") && !coagNames.isEmpty
  let panels := appendPanel panels coagCond ⟨"Coagulation", coagNames⟩
  let added := added ++ if coagCond then ["Coagulation"] else []
  let needs_inflammatory := ctx.acuity == "febrile" || acuitySepticShock
  let infNames := (if ctx.refCrp then ["CRP"] else []) ++
    (if ctx.refEsr then ["ESR"] else []) ++
    (if ctx.refProcalcitonin then ["Procalcitonin"] else [])
  let infCond := needs_inflammatory && !(added.contains "Inflammatory Markers") &&
    !infNames.isEmpty
  let panels := appendPanel panels infCond ⟨"Inflammatory Markers", infNames⟩
  let added := added ++ if infCond then ["Inflammatory Markers"] else []
  let has_lipase := panels.any fun p => p.resultNames.contains "Lipase"
  let amylaseCond := has_lipase && !(added.contains "Amylase") && ctx.refAmylase
  let panels := appendPanel panels amylaseCond ⟨"Amylase", ["Amylase"]⟩
  let added := added ++ if amylaseCond then ["Amylase"] else []
  let has_lactate := panels.any fun p => p.resultNames.contains "Lactate"
  let lactateCond := !has_lactate && acuitySepticShock && ctx.edOrInpatient &&
    ctx.refLactate
  let panels := appendPanel panels lactateCond ⟨"Lactate", ["Lactate"]⟩
  let ddimerCond := ctx.dxKeywordClot && !(added.contains "D-dimer") && ctx.refDdimer
  let panels := appendPanel panels ddimerCond ⟨"D-dimer", ["D-dimer"]⟩
  let magCond := ctx.edOrInpatient && !(added.contains "Magnesium") && ctx.refMagnesium
  let panels := appendPanel panels magCond ⟨"Magnesium", ["Magnesium"]⟩
  let hba1cCond := ctx.pmhxDiabetes && !(added.contains "HbA1c") && ctx.hba1cDraw &&
    ctx.refHba1c
  let panels := appendPanel panels hba1cCond ⟨"HbA1c", ["HbA1c"]⟩
  let bnpCond := ctx.pmhxHeartFailure && !(added.contains "BNP") && ctx.refBnp
  let panels := appendPanel panels bnpCond ⟨"BNP", ["BNP"]⟩
  let tshCond := ctx.pmhxThyroid && !(added.contains "TSH") && ctx.refTsh
  appendPanel panels tshCond ⟨"TSH", ["TSH"]⟩

/-- Embedding of emr_models.LabResult (the fields the generator writes). -/
structure LabResult where
  test_name : String
  value : ℝ
  unit : String
  reference_low : ℝ
  reference_high : ℝ
  flag : Option String
  loinc_code : Option String

/-- How _generate_prior_labs (lines 750-758) and _make_result (lines
1128-1138) build an ordinary lab result: bounds copied from the reference,
flag derived by flag_lab_value from the same full reference. -/
noncomputable def mkLabResult (name : String) (u : String) (v : ℝ) (ref : LabRef ℝ)
    (loinc : Option String) : LabResult :=
  ⟨name, v, u, ref.low, ref.high, flag_lab_value v (some ref), loinc⟩

/-- The derived eGFR result appended whenever a creatinine result is
present, built identically at both sites (_generate_prior_labs lines
781-789 and _generate_current_labs lines 1176-1180): bounds 90-120, flag
"L" exactly when the value is below 90, never "H". -/
noncomputable def egfrResult (gfr : ℝ) : LabResult :=
  ⟨"eGFR", gfr, "mL/min/1.73m2", 90, 120,
   if gfr < 90 then some "L" else none, some "33914-3"⟩

/-- The reference information actually stored on a LabResult: its low and
high bounds; LabResult has no critical-bound fields. -/
def storedRef (r : LabResult) : LabRef ℝ :=
  ⟨r.reference_low, r.reference_high, none, none⟩

/-- Embedding of emr_models.GenerationMetadata as stamped by
generate_from_parsed (lines 367-372); generation_timestamp is
datetime.now(), modelled in minutes. -/
structure GenerationMetadata where
  generator_version : String
  generation_timestamp : ℤ
  narrative_backend : String
  seed : Option ℤ
deriving DecidableEq

/-- The chart fields assembled by generate_from_parsed (lines 352-373) that
this development models: the sorted timeline, the final state-tracker
output, and the generation metadata. -/
structure ChartM where
  timeline : List TEvent
  problem_list : List ProblemListEntry
  medication_history : List MedicationChange
  home_medications : List Medication
  generation_metadata : GenerationMetadata

/-- Embedding of the deterministic core of generate_from_parsed (lines
128-373): all randomness is drawn from random.Random(seed), modelled by the
stream function rngOf applied to the seed; the wall clock datetime.now() is
the explicit input now, which dates the timeline and is stamped into the
generation metadata. With a deterministic narrative backend (identified by
backendName) the output is a pure function of these inputs. -/
def generate_from_parsed (rngOf : Option ℤ → TimelineRand)
    (rx : String → Option String) (backendName : String)
    (matched : List (String × List Stage)) (stateEvents : List StateEvent)
    (seed : Option ℤ) (now : ℤ) : ChartM :=
  let r := rngOf seed
  let tl := build_timeline now matched r
  let st := runTimelineState rx stateEvents
  ⟨tl, st.problem_list, st.medication_history, st.current_meds,
   ⟨"2.0.0", now, backendName, seed⟩⟩

theorem roundHalfEven_of_lt_half {K : Type} [LinearOrderedField K] [FloorRing K]
    (n : ℤ) (x : K) (h1 : (n : K) ≤ x) (h2 : x < (n : K) + 1 / 2) :
    roundHalfEven x = n := by
  have hf : ⌊x⌋ = n := Int.floor_eq_iff.mpr ⟨h1, by linarith⟩
  have hfr : Int.fract x < 1 / 2 := by
    simp only [Int.fract, hf]
    linarith
  unfold roundHalfEven
  rw [if_pos hfr, hf]

theorem roundHalfEven_of_gt_half {K : Type} [LinearOrderedField K] [FloorRing K]
    (n : ℤ) (x : K) (h1 : (n : K) + 1 / 2 < x) (h2 : x < (n : K) + 1) :
    roundHalfEven x = n + 1 := by
  have hf : ⌊x⌋ = n := Int.floor_eq_iff.mpr ⟨by linarith, by linarith⟩
  have hfr : 1 / 2 < Int.fract x := by
    simp only [Int.fract, hf]
    linarith
  unfold roundHalfEven
  rw [if_neg (not_lt.mpr hfr.le), if_pos hfr, hf]

theorem roundHalfEven_ge {K : Type} [LinearOrderedField K] [FloorRing K]
    (n : ℤ) (x : K) (h : (n : K) + 1 / 2 < x) : n + 1 ≤ roundHalfEven x := by
  rcases lt_or_le x ((n : K) + 1) with hlt | hge
  · exact (roundHalfEven_of_gt_half n x h hlt).ge
  · have hf : n + 1 ≤ ⌊x⌋ := Int.le_floor.mpr (by push_cast; linarith)
    have hcases : roundHalfEven x = ⌊x⌋ ∨ roundHalfEven x = ⌊x⌋ + 1 := by
      unfold roundHalfEven
      split_ifs <;> simp
    rcases hcases with hh | hh <;> omega

/-- C2: flag_lab_value computes exactly the spec's flag function (Critical
when an existing critical bound is breached, checked before the high/low
comparison; L below low; H above high; None inside the inclusive range), and
the three reference examples evaluate as the spec states. -/
theorem C2_flag_matches_spec :
    (∀ (v : ℚ) (ref : LabRef ℚ), flag_lab_value v (some ref) = flagSpec v ref) ∧
    flag_lab_value (119 : ℚ) (some ⟨120, 145, some 100, none⟩) = some "L" ∧
    flag_lab_value (99 : ℚ) (some ⟨120, 145, some 100, none⟩) = some "Critical" ∧
    flag_lab_value (132 : ℚ) (some ⟨120, 145, none, none⟩) = none := by
  refine ⟨fun v ref => ?_, ?_, ?_, ?_⟩
  · unfold flag_lab_value flagSpec critLowBreached critHighBreached
    cases hcl : ref.critical_low with
    | none =>
      cases hch : ref.critical_high with
      | none => simp [hcl, hch]
      | some c2 => by_cases h2 : c2 < v <;> simp [hcl, hch, h2]
    | some c1 =>
      cases hch : ref.critical_high with
      | none => by_cases h1 : v < c1 <;> simp [hcl, hch, h1]
      | some c2 =>
        by_cases h1 : v < c1 <;> by_cases h2 : c2 < v <;> simp [hcl, hch, h1, h2]
  · norm_num [flag_lab_value, critLowBreached, critHighBreached]
  · norm_num [flag_lab_value, critLowBreached, critHighBreached]
  · norm_num [flag_lab_value, critLowBreached, critHighBreached]

/-- C3: calculate_gfr computes exactly the race-free CKD-EPI 2021 formula as
worded by the spec, with the female parameters (0.7, -0.241, 1.012) and the
male/other parameters (0.9, -0.302, 1.0); at creatinine 1.0, age 50, Male
the result is the stated formula value (the min factor collapses to 1)
rounded to one decimal. -/
theorem C3_calculate_gfr_matches_spec :
    (∀ (cr : ℝ) (age : ℕ) (sex : String), calculate_gfr cr age sex = gfrSpec cr age sex) ∧
    calculate_gfr 1 50 "Male" =
      round1 (142 * (max ((1 : ℝ) / 0.9) 1) ^ (-(1.200 : ℝ)) * (0.9938 : ℝ) ^ 50) := by
  constructor
  · intro cr age sex
    by_cases h : lowerStr sex = "female" <;>
      simp [calculate_gfr, gfrSpec, h] <;> norm_num
  · have h : ¬ (lowerStr "Male" = "female") := by decide
    have hmin : min ((1 : ℝ) / 0.9) 1 = 1 := by
      rw [min_eq_right]
      norm_num
    have hmax : max ((1 : ℝ) / 0.9) (1.0 : ℝ) = (1 : ℝ) / 0.9 := by
      rw [max_eq_left]
      norm_num
    simp only [calculate_gfr, h, if_false]
    norm_num [hmin, hmax, Real.one_rpow]

/-- C6 (amended): evolve_lab_value returns the linear interpolation plus the
noise draw (added only when the spread noiseFactor * |target - base| is
positive), rounded to one decimal; when totalSteps <= 1 it returns the
target rounded to one decimal (not the target unchanged). -/
theorem C6_evolve_lab_value_amended (base target : ℚ) (step total : ℤ)
    (nf noise : ℚ) :
    (total ≤ 1 → evolve_lab_value base target step total nf noise = round1 target) ∧
    (1 < total → evolve_lab_value base target step total nf noise =
      round1 (lerpSpec base target step total +
        if 0 < |target - base| * nf then noise else 0)) := by
  constructor
  · intro h
    simp [evolve_lab_value, h]
  · intro h
    simp only [evolve_lab_value, lerpSpec]
    rw [if_neg (not_le.mpr h)]
    by_cases hs : 0 < |target - base| * nf
    · rw [if_pos hs, if_pos hs]
    · rw [if_neg hs, if_neg hs, add_zero]

theorem C6_evolve_lab_value_amended_witness :
    evolve_lab_value 0 (6 / 5) 0 1 0 0 = round1 ((6 : ℚ) / 5) :=
  (C6_evolve_lab_value_amended 0 (6 / 5) 0 1 0 0).1 (by norm_num)

/-- C6 counterexample: with totalSteps = 1 the claim says the target is
returned unchanged, but evolve_lab_value(base=0, target=1.26, step=0,
totalSteps=1) returns round(1.26, 1) = 1.3, not 1.26. -/
theorem C6_counterexample :
    evolve_lab_value 0 (63 / 50) 0 1 (1 / 20) 0 ≠ 63 / 50 ∧
    evolve_lab_value 0 (63 / 50) 0 1 (1 / 20) 0 = 13 / 10 := by
  have h : evolve_lab_value 0 (63 / 50) 0 1 (1 / 20) 0 = round1 ((63 : ℚ) / 50) := by
    simp [evolve_lab_value]
  have h2 : roundHalfEven (10 * ((63 : ℚ) / 50)) = 13 := by
    have h12 := roundHalfEven_of_gt_half (K := ℚ) 12 (10 * (63 / 50))
      (by norm_num) (by norm_num)
    simpa using h12
  have h3 : round1 ((63 : ℚ) / 50) = 13 / 10 := by
    rw [round1, h2]
    norm_num
  constructor
  · rw [h, h3]
    norm_num
  · rw [h, h3]

theorem rstripPy_of_last_not_space (l : List Char) (c : Char)
    (h1 : l.getLast? = some c) (h2 : pythonSpace c = false) : rstripPy l = l := by
  have hrev : l.reverse.head? = some c := by
    rw [List.head?_reverse]
    exact h1
  rcases List.head?_eq_some_iff.mp hrev with ⟨t, ht⟩
  unfold rstripPy
  rw [ht, List.dropWhile_cons_of_neg (by simp [h2]), ← ht, List.reverse_reverse]

theorem rfind_spec (l : List Char) (c : Char) (h : 0 ≤ rfind l c) :
    (rfind l c).toNat < l.length ∧ l[(rfind l c).toNat]? = some c := by
  induction l with
  | nil => simp [rfind] at h
  | cons a rest ih =>
    by_cases hr : 0 ≤ rfind rest c
    · have hv : rfind (a :: rest) c = rfind rest c + 1 := by
        simp [rfind, hr]
      rcases ih hr with ⟨hlen, hget⟩
      have htn : (rfind rest c + 1).toNat = (rfind rest c).toNat + 1 := by omega
      rw [hv, htn]
      refine ⟨by simpa using Nat.succ_lt_succ hlen, ?_⟩
      simpa using hget
    · by_cases hac : a = c
      · have hv : rfind (a :: rest) c = 0 := by
          simp [rfind, hr, hac]
        rw [hv]
        simp [hac]
      · have hv : rfind (a :: rest) c = -1 := by
          simp [rfind, hr, hac]
        rw [hv] at h
        omega

theorem getLast?_take_succ (l : List Char) (n : ℕ) (h : n < l.length) :
    (l.take (n + 1)).getLast? = l[n]? := by
  induction l generalizing n with
  | nil => simp at h
  | cons a rest ih =>
    cases n with
    | zero => cases rest <;> simp
    | succ n =>
      cases rest with
      | nil => simp at h
      | cons b rest2 =>
        have hh : n < (b :: rest2).length := by simpa using h
        have hih := ih n hh
        simpa [List.getLast?_cons_cons] using hih

theorem sentencePunct_not_space (c : Char) (h : sentencePunct c = true) :
    pythonSpace c = false := by
  have hc : c = '.' ∨ c = '!' ∨ c = '?' := by
    simpa [sentencePunct] using h
  rcases hc with hc | hc | hc <;> subst hc <;> decide

theorem trim_fixed_of_punct_last (r : List Char) (c : Char)
    (h1 : r.getLast? = some c) (h2 : sentencePunct c = true) :
    trim_to_last_sentence r = r := by
  have hne : ¬ r = [] := by
    intro e
    rw [e] at h1
    simp at h1
  have hstrip : rstripPy r = r := rstripPy_of_last_not_space r c h1 (sentencePunct_not_space c h2)
  unfold trim_to_last_sentence
  rw [if_neg hne, if_pos]
  rw [hstrip, h1]
  simp [h2]

theorem trim_cases (l : List Char) :
    trim_to_last_sentence l = l ∨
    ∃ c, (trim_to_last_sentence l).getLast? = some c ∧ sentencePunct c = true := by
  by_cases he : l = []
  · left
    rw [he]
    rfl
  · by_cases hp : (rstripPy l).getLast?.any sentencePunct
    · left
      unfold trim_to_last_sentence
      rw [if_neg he, if_pos hp]
    · set lb : ℤ := max (max (rfind l '.') (rfind l '!')) (rfind l '?') with hlb
      by_cases hpos : 0 < lb
      · right
        have hone : rfind l '.' = lb ∨ rfind l '!' = lb ∨ rfind l '?' = lb := by
          rcases max_choice (max (rfind l '.') (rfind l '!')) (rfind l '?') with hm | hm
          · rcases max_choice (rfind l '.') (rfind l '!') with hm2 | hm2
            · left
              rw [hlb, hm, hm2]
            · right; left
              rw [hlb, hm, hm2]
          · right; right
            rw [hlb, hm]
        have hval : trim_to_last_sentence l = l.take (lb.toNat + 1) := by
          unfold trim_to_last_sentence
          rw [if_neg he, if_neg hp]
          simp only [← hlb, if_pos hpos]
        rcases hone with hc | hc | hc
        · refine ⟨'.', ?_, by decide⟩
          have h0 : 0 ≤ rfind l '.' := by omega
          rcases rfind_spec l '.' h0 with ⟨hlen, hget⟩
          rw [hval, ← hc, getLast?_take_succ l _ hlen]
          exact hget
        · refine ⟨'!', ?_, by decide⟩
          have h0 : 0 ≤ rfind l '!' := by omega
          rcases rfind_spec l '!' h0 with ⟨hlen, hget⟩
          rw [hval, ← hc, getLast?_take_succ l _ hlen]
          exact hget
        · refine ⟨'?', ?_, by decide⟩
          have h0 : 0 ≤ rfind l '?' := by omega
          rcases rfind_spec l '?' h0 with ⟨hlen, hget⟩
          rw [hval, ← hc, getLast?_take_succ l _ hlen]
          exact hget
      · left
        unfold trim_to_last_sentence
        rw [if_neg he, if_neg hp]
        simp only [← hlb, if_neg hpos]

/-- C10: the sentence-trimming helper is idempotent; a string whose last
non-whitespace character is sentence punctuation is returned unchanged; a
string whose last sentence punctuation sits at position <= 0 (in
particular: none at all, or only at index 0) is returned unchanged. -/
theorem C10_trim_idempotent :
    (∀ l : List Char, trim_to_last_sentence (trim_to_last_sentence l) =
      trim_to_last_sentence l) ∧
    (∀ l : List Char, (rstripPy l).getLast?.any sentencePunct = true →
      trim_to_last_sentence l = l) ∧
    (∀ l : List Char,
      max (max (rfind l '.') (rfind l '!')) (rfind l '?') ≤ 0 →
      trim_to_last_sentence l = l) := by
  refine ⟨fun l => ?_, fun l hp => ?_, fun l hb => ?_⟩
  · rcases trim_cases l with h | ⟨c, h1, h2⟩
    · rw [h]
      exact h
    · exact trim_fixed_of_punct_last _ c h1 h2
  · by_cases he : l = []
    · rw [he]
      rfl
    · unfold trim_to_last_sentence
      rw [if_neg he, if_pos hp]
  · by_cases he : l = []
    · rw [he]
      rfl
    · by_cases hp : (rstripPy l).getLast?.any sentencePunct
      · unfold trim_to_last_sentence
        rw [if_neg he, if_pos hp]
      · unfold trim_to_last_sentence
        rw [if_neg he, if_neg hp]
        simp only [if_neg (not_lt.mpr hb)]

theorem C10_trim_idempotent_witness :
    trim_to_last_sentence (trim_to_last_sentence ['H', 'i', '.']) =
      trim_to_last_sentence ['H', 'i', '.'] ∧
    trim_to_last_sentence ['H', 'i', '.'] = ['H', 'i', '.'] ∧
    trim_to_last_sentence ['a', 'b', 'c'] = ['a', 'b', 'c'] :=
  ⟨C10_trim_idempotent.1 ['H', 'i', '.'],
   C10_trim_idempotent.2.1 ['H', 'i', '.'] (by decide),
   C10_trim_idempotent.2.2 ['a', 'b', 'c'] (by decide)⟩

theorem foldl_preserve {A B : Type} (P : A → Prop) (f : A → B → A)
    (hstep : ∀ a b, P a → P (f a b)) :
    ∀ (l : List B) (a : A), P a → P (l.foldl f a) := by
  intro l
  induction l with
  | nil => intro a h; exact h
  | cons b t ih => intro a h; exact ih (f a b) (hstep a b h)

theorem addDiagnosis_meds (st : ChartState) (d : ℤ) (e : String) (dx : DxEvent) :
    (addDiagnosis st d e dx).current_meds = st.current_meds := by
  unfold addDiagnosis
  split_ifs <;> rfl

theorem addDiagnosis_nodup (st : ChartState) (d : ℤ) (e : String) (dx : DxEvent)
    (h1 : (st.problem_list.map ProblemListEntry.condition).Nodup) :
    ((addDiagnosis st d e dx).problem_list.map ProblemListEntry.condition).Nodup := by
  unfold addDiagnosis
  split_ifs with h
  · exact h1
  · have hnot : ∀ p ∈ st.problem_list, ¬ p.condition = dx.condition := by
      simpa using h
    simp only [List.map_append, List.map_cons, List.map_nil]
    rw [List.nodup_append]
    refine ⟨h1, List.nodup_singleton _, ?_⟩
    intro a ha hb
    simp only [List.mem_singleton] at hb
    subst hb
    rcases List.mem_map.mp ha with ⟨p, hp, hpc⟩
    exact hnot p hp hpc

theorem startMedication_problems (rx : String → Option String) (st : ChartState)
    (d : ℤ) (e : String) (m : Medication) :
    (startMedication rx st d e m).problem_list = st.problem_list := by
  simp only [startMedication]
  split_ifs <;> rfl

theorem startMedication_nodup (rx : String → Option String) (st : ChartState)
    (d : ℤ) (e : String) (m : Medication)
    (h1 : (st.current_meds.map Medication.name).Nodup) :
    ((startMedication rx st d e m).current_meds.map Medication.name).Nodup := by
  simp only [startMedication]
  by_cases hr : m.rxnorm_code = none <;> simp only [hr, if_true, if_false] <;>
  · split_ifs with h
    · exact h1
    · have hnot : ∀ cm ∈ st.current_meds, ¬ cm.name = m.name := by
        simpa using h
      simp only [List.map_append, List.map_cons, List.map_nil]
      rw [List.nodup_append]
      refine ⟨h1, List.nodup_singleton _, ?_⟩
      intro a ha hb
      simp only [List.mem_singleton] at hb
      subst hb
      rcases List.mem_map.mp ha with ⟨cm, hcm, hcmn⟩
      exact hnot cm hcm hcmn

theorem applyMedChange_problems (rx : String → Option String) (st : ChartState)
    (d : ℤ) (e : String) (c : MedChangeEvent) :
    (applyMedChange rx st d e c).problem_list = st.problem_list := rfl

theorem applyMedChange_names (rx : String → Option String) (st : ChartState)
    (d : ℤ) (e : String) (c : MedChangeEvent) :
    (applyMedChange rx st d e c).current_meds.map Medication.name =
      st.current_meds.map Medication.name := by
  unfold applyMedChange
  rw [List.map_map]
  apply List.map_congr_left
  intro m _
  simp only [Function.comp]
  split_ifs <;> rfl

/-- C4: starting from the empty chart state and processing any sequence of
timeline events, the problem list has pairwise-distinct condition names and
the current-medication list has pairwise-distinct medication names;
moreover re-adding an already-present diagnosis, or re-starting an
already-present medication, is a no-op. -/
theorem C4_uniqueness_invariant :
    (∀ (rx : String → Option String) (events : List StateEvent),
      ((runTimelineState rx events).problem_list.map ProblemListEntry.condition).Nodup ∧
      ((runTimelineState rx events).current_meds.map Medication.name).Nodup) ∧
    (∀ (st : ChartState) (d : ℤ) (e : String) (dx : DxEvent),
      st.problem_list.any (fun p => p.condition = dx.condition) = true →
      addDiagnosis st d e dx = st) ∧
    (∀ (rx : String → Option String) (st : ChartState) (d : ℤ) (e : String)
      (m : Medication),
      st.current_meds.any (fun cm => cm.name = m.name) = true →
      startMedication rx st d e m = st) := by
  refine ⟨fun rx events => ?_, fun st d e dx h => ?_, fun rx st d e m h => ?_⟩
  · have hstep : ∀ st ev,
        ((ChartState.problem_list st).map ProblemListEntry.condition).Nodup ∧
          ((ChartState.current_meds st).map Medication.name).Nodup →
        (((processEvent rx st ev).problem_list).map ProblemListEntry.condition).Nodup ∧
          (((processEvent rx st ev).current_meds).map Medication.name).Nodup := by
      intro st ev hinv
      unfold processEvent
      apply foldl_preserve
        (fun s => ((ChartState.problem_list s).map ProblemListEntry.condition).Nodup ∧
          ((ChartState.current_meds s).map Medication.name).Nodup)
      · intro a b ⟨ha1, ha2⟩
        exact ⟨by rw [applyMedChange_problems]; exact ha1,
          by rw [applyMedChange_names]; exact ha2⟩
      · apply foldl_preserve
          (fun s => ((ChartState.problem_list s).map ProblemListEntry.condition).Nodup ∧
            ((ChartState.current_meds s).map Medication.name).Nodup)
        · intro a b ⟨ha1, ha2⟩
          exact ⟨by rw [startMedication_problems]; exact ha1,
            startMedication_nodup rx a ev.date ev.encounter_id b ha2⟩
        · apply foldl_preserve
            (fun s => ((ChartState.problem_list s).map ProblemListEntry.condition).Nodup ∧
              ((ChartState.current_meds s).map Medication.name).Nodup)
          · intro a b ⟨ha1, ha2⟩
            exact ⟨addDiagnosis_nodup a ev.date ev.encounter_id b ha1,
              by rw [addDiagnosis_meds]; exact ha2⟩
          · exact hinv
    unfold runTimelineState
    apply foldl_preserve
      (fun s => ((ChartState.problem_list s).map ProblemListEntry.condition).Nodup ∧
        ((ChartState.current_meds s).map Medication.name).Nodup)
      (processEvent rx) hstep
    exact ⟨List.nodup_nil, List.nodup_nil⟩
  · unfold addDiagnosis
    rw [if_pos]
    exact h
  · simp only [startMedication]
    by_cases hr : m.rxnorm_code = none <;> simp [hr, h]

theorem C4_uniqueness_invariant_witness :
    addDiagnosis ⟨[⟨"Hypertension", none, 0, "Active", "E1"⟩], [], []⟩ 5 "E2"
        ⟨"Hypertension", none⟩ =
      ⟨[⟨"Hypertension", none, 0, "Active", "E1"⟩], [], []⟩ ∧
    startMedication (fun _ => none)
        ⟨[], [⟨"Lisinopril", "10 mg", "PO", "daily", none, none⟩], []⟩ 5 "E2"
        ⟨"Lisinopril", "20 mg", "PO", "daily", none, none⟩ =
      ⟨[], [⟨"Lisinopril", "10 mg", "PO", "daily", none, none⟩], []⟩ :=
  ⟨C4_uniqueness_invariant.2.1 _ 5 "E2" ⟨"Hypertension", none⟩ (by decide),
   C4_uniqueness_invariant.2.2 (fun _ => none) _ 5 "E2"
     ⟨"Lisinopril", "20 mg", "PO", "daily", none, none⟩ (by decide)⟩

/-- C5: applying a medication change whose target name occurs in the
current-medication list (unique by name, as C4 guarantees) overwrites
exactly that medication's dose in place and appends exactly one audit entry
recording the previous dose, the new dose, the change type and the optional
reason; a change whose target name is absent leaves the whole state
unchanged (silently dropped, no entry, no error). -/
theorem C5_medication_change (rx : String → Option String) (st : ChartState)
    (d : ℤ) (e : String) (c : MedChangeEvent)
    (hnodup : (st.current_meds.map Medication.name).Nodup) :
    (∀ m, m ∈ st.current_meds → m.name = c.medication_name →
      ∃ pre post, st.current_meds = pre ++ m :: post ∧
        (applyMedChange rx st d e c).current_meds =
          pre ++ ⟨m.name, c.new_dose.getD m.dose, m.route, m.frequency,
            m.indication, m.rxnorm_code⟩ :: post ∧
        (applyMedChange rx st d e c).medication_history =
          st.medication_history ++
            [⟨⟨m.name, c.new_dose.getD m.dose, m.route, m.frequency, none,
               if m.rxnorm_code = none then rx m.name else m.rxnorm_code⟩,
              c.change_type, d, e, c.reason, some m.dose⟩] ∧
        (applyMedChange rx st d e c).problem_list = st.problem_list) ∧
    ((∀ m ∈ st.current_meds, ¬ m.name = c.medication_name) →
      applyMedChange rx st d e c = st) := by
  constructor
  · intro m hm hname
    rcases List.append_of_mem hm with ⟨pre, post, hsplit⟩
    have hn2 := hnodup
    rw [hsplit, List.map_append, List.map_cons, List.nodup_append] at hn2
    have hmpre : m.name ∉ pre.map Medication.name := fun hmem =>
      hn2.2.2 hmem (List.mem_cons_self _ _)
    have hmpost : m.name ∉ post.map Medication.name := by
      have hc := hn2.2.1
      rw [List.nodup_cons] at hc
      exact hc.1
    have hpre : ∀ x ∈ pre, ¬ x.name = c.medication_name := fun x hx hxn =>
      hmpre (List.mem_map.mpr ⟨x, hx, hxn.trans hname.symm⟩)
    have hpost : ∀ x ∈ post, ¬ x.name = c.medication_name := fun x hx hxn =>
      hmpost (List.mem_map.mpr ⟨x, hx, hxn.trans hname.symm⟩)
    refine ⟨pre, post, hsplit, ?_, ?_, rfl⟩
    · show st.current_meds.map _ = _
      rw [hsplit, List.map_append, List.map_cons]
      have hpremap : pre.map (fun x : Medication =>
          if x.name = c.medication_name then
            (⟨x.name, c.new_dose.getD x.dose, x.route, x.frequency,
              x.indication, x.rxnorm_code⟩ : Medication)
          else x) = pre.map id := List.map_congr_left fun x hx => if_neg (hpre x hx)
      have hpostmap : post.map (fun x : Medication =>
          if x.name = c.medication_name then
            (⟨x.name, c.new_dose.getD x.dose, x.route, x.frequency,
              x.indication, x.rxnorm_code⟩ : Medication)
          else x) = post.map id := List.map_congr_left fun x hx => if_neg (hpost x hx)
      rw [hpremap, hpostmap, List.map_id, List.map_id, if_pos hname]
    · show st.medication_history ++ _ = _
      congr 1
      have hfilter : st.current_meds.filter
          (fun x : Medication => x.name = c.medication_name) = [m] := by
        rw [hsplit, List.filter_append, List.filter_cons,
          List.filter_eq_nil_iff.mpr (by simpa using hpre),
          List.filter_eq_nil_iff.mpr (by simpa using hpost)]
        simp [hname]
      rw [hfilter]
      rfl
  · intro h
    obtain ⟨pl, cm, mh⟩ := st
    have hmap : cm.map (fun x : Medication =>
        if x.name = c.medication_name then
          (⟨x.name, c.new_dose.getD x.dose, x.route, x.frequency,
            x.indication, x.rxnorm_code⟩ : Medication)
        else x) = cm.map id :=
      List.map_congr_left fun x hx => if_neg (h x hx)
    have hfil : cm.filter (fun x : Medication => x.name = c.medication_name) = [] :=
      List.filter_eq_nil_iff.mpr (by simpa using h)
    simp [applyMedChange, hmap, hfil]

theorem C5_medication_change_witness :
    (applyMedChange (fun _ => none)
        ⟨[], [⟨"Lisinopril", "10 mg", "PO", "daily", none, none⟩], []⟩ 7 "E3"
        ⟨"Lisinopril", some "20 mg", "Increased", some "BP control"⟩).current_meds =
      [⟨"Lisinopril", "20 mg", "PO", "daily", none, none⟩] ∧
    (applyMedChange (fun _ => none)
        ⟨[], [⟨"Lisinopril", "10 mg", "PO", "daily", none, none⟩], []⟩ 7 "E3"
        ⟨"Lisinopril", some "20 mg", "Increased", some "BP control"⟩).medication_history =
      [⟨⟨"Lisinopril", "20 mg", "PO", "daily", none, none⟩,
        "Increased", 7, "E3", some "BP control", some "10 mg"⟩] ∧
    applyMedChange (fun _ => none)
        ⟨[], [⟨"Lisinopril", "10 mg", "PO", "daily", none, none⟩], []⟩ 7 "E3"
        ⟨"Metformin", some "500 mg", "Increased", none⟩ =
      ⟨[], [⟨"Lisinopril", "10 mg", "PO", "daily", none, none⟩], []⟩ := by
  have hth := C5_medication_change (fun _ => none)
    ⟨[], [⟨"Lisinopril", "10 mg", "PO", "daily", none, none⟩], []⟩ 7 "E3"
    ⟨"Lisinopril", some "20 mg", "Increased", some "BP control"⟩ (by decide)
  have hth2 := C5_medication_change (fun _ => none)
    ⟨[], [⟨"Lisinopril", "10 mg", "PO", "daily", none, none⟩], []⟩ 7 "E3"
    ⟨"Metformin", some "500 mg", "Increased", none⟩ (by decide)
  rcases hth.1 ⟨"Lisinopril", "10 mg", "PO", "daily", none, none⟩
      (by decide) (by decide) with ⟨pre, post, hsp, hmeds, hhist, _⟩
  rcases pre with _ | ⟨a, t⟩
  · rcases post with _ | ⟨b, u⟩
    · refine ⟨by simpa using hmeds, by simpa using hhist, hth2.2 (by decide)⟩
    · simp at hsp
  · rcases t with _ | ⟨a2, t2⟩ <;> simp at hsp

theorem panelChainStep (ps : List LabPanelM) (c : Bool) (p : LabPanelM)
    (L : List String)
    (h : (ps.map LabPanelM.panel_name).Nodup ∧
      (∀ n ∈ ps.map LabPanelM.panel_name, n ∈ L) ∧
      (∀ q ∈ ps, q.panel_name = "Lactate" → "Lactate" ∈ q.resultNames))
    (hfresh : p.panel_name ∉ L)
    (hp : p.panel_name = "Lactate" → "Lactate" ∈ p.resultNames) :
    ((appendPanel ps c p).map LabPanelM.panel_name).Nodup ∧
      (∀ n ∈ (appendPanel ps c p).map LabPanelM.panel_name,
        n ∈ L ++ [p.panel_name]) ∧
      (∀ q ∈ appendPanel ps c p,
        q.panel_name = "Lactate" → "Lactate" ∈ q.resultNames) := by
  obtain ⟨h1, h2, h3⟩ := h
  unfold appendPanel
  split_ifs with hc
  · refine ⟨?_, ?_, ?_⟩
    · rw [List.map_append, List.nodup_append]
      refine ⟨h1, by simp, ?_⟩
      intro a ha hb
      simp only [List.map_cons, List.map_nil, List.mem_singleton] at hb
      subst hb
      exact hfresh (h2 _ ha)
    · intro n hn
      rw [List.map_append] at hn
      rcases List.mem_append.mp hn with hn | hn
      · exact List.mem_append.mpr (Or.inl (h2 n hn))
      · simp only [List.map_cons, List.map_nil, List.mem_singleton] at hn
        subst hn
        exact List.mem_append.mpr (Or.inr (by simp))
    · intro q hq
      rcases List.mem_append.mp hq with hq | hq
      · exact h3 q hq
      · simp only [List.mem_singleton] at hq
        subst hq
        exact hp
  · exact ⟨h1, fun n hn => List.mem_append.mpr (Or.inl (h2 n hn)), h3⟩

theorem panelChainStepLactate (ps : List LabPanelM) (c : Bool) (L : List String)
    (h : (ps.map LabPanelM.panel_name).Nodup ∧
      (∀ n ∈ ps.map LabPanelM.panel_name, n ∈ L) ∧
      (∀ q ∈ ps, q.panel_name = "Lactate" → "Lactate" ∈ q.resultNames))
    (hg : c = true → (ps.any fun q => q.resultNames.contains "Lactate") = false) :
    ((appendPanel ps c ⟨"Lactate", ["Lactate"]⟩).map LabPanelM.panel_name).Nodup ∧
      (∀ n ∈ (appendPanel ps c ⟨"Lactate", ["Lactate"]⟩).map LabPanelM.panel_name,
        n ∈ L ++ ["Lactate"]) ∧
      (∀ q ∈ appendPanel ps c ⟨"Lactate", ["Lactate"]⟩,
        q.panel_name = "Lactate" → "Lactate" ∈ q.resultNames) := by
  obtain ⟨h1, h2, h3⟩ := h
  unfold appendPanel
  split_ifs with hc
  · have hany := hg hc
    have hnolac : "Lactate" ∉ ps.map LabPanelM.panel_name := by
      intro hmem
      rcases List.mem_map.mp hmem with ⟨q, hq, hqn⟩
      have hqlac : "Lactate" ∈ q.resultNames := h3 q hq hqn
      rw [List.any_eq_false] at hany
      exact hany q hq (by simpa using hqlac)
    refine ⟨?_, ?_, ?_⟩
    · rw [List.map_append, List.nodup_append]
      refine ⟨h1, by simp, ?_⟩
      intro a ha hb
      simp only [List.map_cons, List.map_nil, List.mem_singleton] at hb
      subst hb
      exact hnolac ha
    · intro n hn
      rw [List.map_append] at hn
      rcases List.mem_append.mp hn with hn | hn
      · exact List.mem_append.mpr (Or.inl (h2 n hn))
      · simp only [List.map_cons, List.map_nil, List.mem_singleton] at hn
        subst hn
        exact List.mem_append.mpr (Or.inr (by simp))
    · intro q hq
      rcases List.mem_append.mp hq with hq | hq
      · exact h3 q hq
      · simp only [List.mem_singleton] at hq
        subst hq
        intro _
        simp
  · exact ⟨h1, fun n hn => List.mem_append.mpr (Or.inl (h2 n hn)), h3⟩

/-- C9: for every combination of lab data, acuity, diagnosis, setting and
prior-condition context, the current-encounter lab-panel list contains no
two panels with the same panel name: each injection rule appends its panel
at most once and only when that panel name is still absent. -/
theorem C9_current_panels_nodup (ctx : CurrentLabCtx) :
    ((currentLabPanels ctx).map LabPanelM.panel_name).Nodup := by
  unfold currentLabPanels
  refine (panelChainStep _ _ _
    ["CBC", "CMP + LFT", "Lipase", "Lactate", "Cardiac Markers", "Coagulation",
     "Inflammatory Markers", "Amylase", "Lactate", "D-dimer", "Magnesium",
     "HbA1c", "BNP"] ?_ (by simp) (by simp)).1
  refine panelChainStep _ _ _
    ["CBC", "CMP + LFT", "Lipase", "Lactate", "Cardiac Markers", "Coagulation",
     "Inflammatory Markers", "Amylase", "Lactate", "D-dimer", "Magnesium",
     "HbA1c"] ?_ (by simp) (by simp)
  refine panelChainStep _ _ _
    ["CBC", "CMP + LFT", "Lipase", "Lactate", "Cardiac Markers", "Coagulation",
     "Inflammatory Markers", "Amylase", "Lactate", "D-dimer", "Magnesium"]
    ?_ (by simp) (by simp)
  refine panelChainStep _ _ _
    ["CBC", "CMP + LFT", "Lipase", "Lactate", "Cardiac Markers", "Coagulation",
     "Inflammatory Markers", "Amylase", "Lactate", "D-dimer"] ?_ (by simp) (by simp)
  refine panelChainStep _ _ _
    ["CBC", "CMP + LFT", "Lipase", "Lactate", "Cardiac Markers", "Coagulation",
     "Inflammatory Markers", "Amylase", "Lactate"] ?_ (by simp) (by simp)
  refine panelChainStepLactate _ _
    ["CBC", "CMP + LFT", "Lipase", "Lactate", "Cardiac Markers", "Coagulation",
     "Inflammatory Markers", "Amylase"] ?_
    (fun hc =>
      (by decide : ∀ (x a e r : Bool), (((!x && a) && e) && r) = true → x = false)
        _ _ _ _ hc)
  refine panelChainStep _ _ _
    ["CBC", "CMP + LFT", "Lipase", "Lactate", "Cardiac Markers", "Coagulation",
     "Inflammatory Markers"] ?_ (by simp) (by simp)
  refine panelChainStep _ _ _
    ["CBC", "CMP + LFT", "Lipase", "Lactate", "Cardiac Markers", "Coagulation"]
    ?_ (by simp) (by simp)
  refine panelChainStep _ _ _
    ["CBC", "CMP + LFT", "Lipase", "Lactate", "Cardiac Markers"] ?_
    (by simp) (by simp)
  refine panelChainStep _ _ _
    ["CBC", "CMP + LFT", "Lipase", "Lactate"] ?_ (by simp) (by simp)
  refine panelChainStep _ _ _
    ["CBC", "CMP + LFT", "Lipase"] ?_ (by simp) (by simp)
  refine panelChainStep _ _ _
    ["CBC", "CMP + LFT"] ?_ (by simp) (by simp)
  refine ⟨by simp, by simp, ?_⟩
  intro q hq
  simp only [List.mem_cons, List.not_mem_nil, or_false] at hq
  rcases hq with hq | hq <;> subst hq <;> intro habs <;> simp at habs

theorem progression_stage_bound :
    ∀ p ∈ CONDITION_PROGRESSIONS, ∀ s ∈ p.2,
      s.year_offset * 365 + s.month_offset * 30 ≤ -90 := by
  decide

theorem dayOf_add_days (t k : ℤ) : dayOf (t + k * 1440) = dayOf t + k := by
  unfold dayOf
  exact Int.add_mul_ediv_right t k (by norm_num)

theorem dayOf_replaceHM (t h m : ℤ) (hh0 : 0 ≤ h) (hh1 : h ≤ 23)
    (hm0 : 0 ≤ m) (hm1 : m ≤ 59) : dayOf (replaceHM t h m) = dayOf t := by
  unfold replaceHM dayOf
  rw [add_assoc, add_comm (t / 1440 * 1440) (h * 60 + m),
    Int.add_mul_ediv_right _ _ (by norm_num : (1440 : ℤ) ≠ 0),
    Int.ediv_eq_zero_of_lt (by omega) (by omega), zero_add]

theorem replaceHM_le (t h m : ℤ) (hh1 : h ≤ 23) (hm1 : m ≤ 59) :
    replaceHM t h m ≤ dayOf t * 1440 + 1439 := by
  unfold replaceHM
  omega

theorem replaceHM_ge (t h m : ℤ) (hh0 : 0 ≤ h) (hm0 : 0 ≤ m) :
    dayOf t * 1440 ≤ replaceHM t h m := by
  unfold replaceHM
  omega

theorem withIdx_mem {A : Type} :
    ∀ (n : ℕ) (l : List A) (q : ℕ × A), q ∈ withIdx n l → q.2 ∈ l := by
  intro n l
  induction l generalizing n with
  | nil => intro q h; simp [withIdx] at h
  | cons a t ih =>
    intro q h
    rcases List.mem_cons.mp h with h | h
    · subst h
      exact List.mem_cons_self _ _
    · exact List.mem_cons_of_mem _ (ih (n + 1) q h)

theorem withIdx_append {A : Type} (l1 l2 : List A) :
    ∀ n, withIdx n (l1 ++ l2) = withIdx n l1 ++ withIdx (n + l1.length) l2 := by
  induction l1 with
  | nil => intro n; simp [withIdx]
  | cons a t ih =>
    intro n
    have h1 : withIdx n ((a :: t) ++ l2) = (n, a) :: withIdx (n + 1) (t ++ l2) := rfl
    have h2 : withIdx n (a :: t) = (n, a) :: withIdx (n + 1) t := rfl
    rw [h1, h2, ih (n + 1), List.cons_append]
    have hn : n + 1 + t.length = n + (a :: t).length := by
      simp only [List.length_cons]
      omega
    rw [hn]

theorem stageEvents_mem (now : ℤ) (matched : List (String × List Stage))
    (jit : ℕ → ℤ)
    (hm : ∀ p ∈ matched, p ∈ CONDITION_PROGRESSIONS)
    (hj : ∀ i, -30 ≤ jit i ∧ jit i ≤ 30) :
    ∀ e ∈ stageEvents now matched jit,
      e.isCurrent = false ∧ ∃ d : ℤ, d ≤ -60 ∧ e.date = now + d * 1440 := by
  intro e he
  unfold stageEvents at he
  rcases List.mem_map.mp he with ⟨q, hq, hfq⟩
  have hq2 := withIdx_mem 0 _ q hq
  rcases List.mem_flatten.mp hq2 with ⟨inner, hinner, hqin⟩
  rcases List.mem_map.mp hinner with ⟨p, hp, hpinner⟩
  subst hpinner
  rcases List.mem_map.mp hqin with ⟨s, hs, hsq⟩
  have hbound := progression_stage_bound p (hm p hp) s hs
  subst hfq
  rw [← hsq]
  refine ⟨rfl, s.year_offset * 365 + s.month_offset * 30 + jit q.1, ?_, rfl⟩
  have := (hj q.1).2
  omega

theorem annualPass_mem (now : ℤ) (aj : ℕ → ℤ)
    (ha : ∀ i, -60 ≤ aj i ∧ aj i ≤ 60) :
    ∀ (y : ℕ) (evs : List TEvent),
      (∀ e ∈ evs, e.isCurrent = false ∧ ∃ d : ℤ, d ≤ -60 ∧ e.date = now + d * 1440) →
      ∀ e ∈ annualPass now aj y evs,
        e.isCurrent = false ∧ ∃ d : ℤ, d ≤ -60 ∧ e.date = now + d * 1440 := by
  intro y
  induction y with
  | zero => intro evs hevs e he; exact hevs e he
  | succ y ih =>
    intro evs hevs e he
    simp only [annualPass] at he
    split_ifs at he with hcond
    · exact ih evs hevs e he
    · refine ih _ ?_ e he
      intro e2 he2
      rcases List.mem_append.mp he2 with he2 | he2
      · exact hevs e2 he2
      · simp only [List.mem_singleton] at he2
        subst he2
        refine ⟨rfl, -(((y : ℤ) + 1) * 365 + aj (y + 1)), ?_, by ring⟩
        have := (ha (y + 1)).1
        omega

theorem assignHours_append_current (r : TimelineRand) (l : List TEvent)
    (e : TEvent) (he : e.isCurrent = true) :
    assignHours r (l ++ [e]) = assignHours r l ++ [e] := by
  unfold assignHours
  rw [withIdx_append, List.map_append]
  congr 1
  simp [withIdx, he]

theorem assignHours_prior_mem (now : ℤ) (r : TimelineRand) (l : List TEvent)
    (heh : ∀ i, 0 ≤ r.eventHour i ∧ r.eventHour i ≤ 23)
    (hem : ∀ i, 0 ≤ r.eventMinute i ∧ r.eventMinute i ≤ 59)
    (hl : ∀ e ∈ l, e.isCurrent = false ∧ ∃ d : ℤ, d ≤ -60 ∧ e.date = now + d * 1440) :
    ∀ e2 ∈ assignHours r l,
      e2.isCurrent = false ∧ e2.date ≤ (dayOf now - 60) * 1440 + 1439 := by
  intro e2 he2
  unfold assignHours at he2
  rcases List.mem_map.mp he2 with ⟨q, hq, hfq⟩
  have hqmem := withIdx_mem 0 l q hq
  rcases hl q.2 hqmem with ⟨hfalse, d, hd, hdate⟩
  rw [hfalse] at hfq
  simp only [Bool.false_eq_true, if_false] at hfq
  subst hfq
  refine ⟨rfl, ?_⟩
  have hle := replaceHM_le q.2.date (r.eventHour q.1) (r.eventMinute q.1)
    (heh q.1).2 (hem q.1).2
  have hday : dayOf q.2.date = dayOf now + d := by
    rw [hdate]
    exact dayOf_add_days now d
  show replaceHM q.2.date (r.eventHour q.1) (r.eventMinute q.1) ≤
    (dayOf now - 60) * 1440 + 1439
  rw [hday] at hle
  linarith

theorem currentEvent_ge (now : ℤ) (r : TimelineRand)
    (hc : 1 ≤ r.currentDaysAgo ∧ r.currentDaysAgo ≤ 14)
    (hch : 0 ≤ r.currentHour) (hcm2 : 0 ≤ r.currentMinute) :
    (dayOf now - 14) * 1440 ≤ (currentEvent now r).date := by
  have h1 : dayOf (now - r.currentDaysAgo * 1440) = dayOf now - r.currentDaysAgo := by
    have h := dayOf_add_days now (-r.currentDaysAgo)
    rw [neg_mul] at h
    rw [← sub_eq_add_neg] at h
    rw [h]
    ring
  have h2 := replaceHM_ge (now - r.currentDaysAgo * 1440) r.currentHour
    r.currentMinute hch hcm2
  rw [h1] at h2
  show (dayOf now - 14) * 1440 ≤
    replaceHM (now - r.currentDaysAgo * 1440) r.currentHour r.currentMinute
  have := hc.2
  linarith

theorem sorted_getLast_eq :
    ∀ (l : List TEvent) (cur : TEvent), List.Sorted eventLE l → cur ∈ l →
      (∀ e ∈ l, e ≠ cur → e.date < cur.date) → l.getLast? = some cur := by
  intro l
  induction l with
  | nil => intro cur _ hmem _; simp at hmem
  | cons a t ih =>
    intro cur hs hmem hlt
    rcases t with _ | ⟨b, u⟩
    · simp only [List.mem_singleton] at hmem
      subst hmem
      rfl
    · have hs2 : List.Sorted eventLE (b :: u) := hs.of_cons
      have hcur2 : cur ∈ b :: u := by
        rcases List.mem_cons.mp hmem with h1 | h1
        · by_cases hb : b = cur
          · exact List.mem_cons.mpr (Or.inl hb.symm)
          · exfalso
            have hab : eventLE a b :=
              (List.sorted_cons.mp hs).1 b (List.mem_cons_self _ _)
            have hab2 : a.date ≤ b.date := hab
            have hblt := hlt b (List.mem_cons_of_mem a (List.mem_cons_self _ _)) hb
            rw [h1] at hblt
            exact absurd hblt (not_lt.mpr hab2)
        · exact h1
      have hlt2 : ∀ e ∈ b :: u, e ≠ cur → e.date < cur.date := fun e he =>
        hlt e (List.mem_cons_of_mem a he)
      rw [List.getLast?_cons_cons]
      exact ih cur hs2 hcur2 hlt2

/-- C1 (amended): for all inputs and all in-range random draws, the built
timeline is sorted ascending (non-strictly) by full timestamp, its last
element is the current/presenting event, and every non-current event is
dated strictly before the current event. Strict ascending order between
prior events does not hold in general: two prior events can draw identical
timestamps (see the counterexample). -/
theorem C1_timeline_sorted_current_last (now : ℤ)
    (matched : List (String × List Stage)) (r : TimelineRand)
    (hm : ∀ p ∈ matched, p ∈ CONDITION_PROGRESSIONS)
    (hj : ∀ i, -30 ≤ r.stageJitter i ∧ r.stageJitter i ≤ 30)
    (ha : ∀ i, -60 ≤ r.annualJitter i ∧ r.annualJitter i ≤ 60)
    (hc : 1 ≤ r.currentDaysAgo ∧ r.currentDaysAgo ≤ 14)
    (hch : 0 ≤ r.currentHour ∧ r.currentHour ≤ 23)
    (hcm : 0 ≤ r.currentMinute ∧ r.currentMinute ≤ 59)
    (heh : ∀ i, 0 ≤ r.eventHour i ∧ r.eventHour i ≤ 23)
    (hem : ∀ i, 0 ≤ r.eventMinute i ∧ r.eventMinute i ≤ 59) :
    List.Sorted eventLE (build_timeline now matched r) ∧
    (build_timeline now matched r).getLast? = some (currentEvent now r) ∧
    (∀ e ∈ build_timeline now matched r, e.isCurrent = false →
      e.date < (currentEvent now r).date) := by
  have hstage := stageEvents_mem now matched r.stageJitter hm hj
  have hannual := annualPass_mem now r.annualJitter ha
    (yearsBack now (stageEvents now matched r.stageJitter))
    (stageEvents now matched r.stageJitter) hstage
  have hprior := assignHours_prior_mem now r _ heh hem hannual
  have hb : build_timeline now matched r =
      List.insertionSort eventLE
        (assignHours r (annualPass now r.annualJitter
          (yearsBack now (stageEvents now matched r.stageJitter))
          (stageEvents now matched r.stageJitter)) ++ [currentEvent now r]) := by
    simp only [build_timeline]
    rw [assignHours_append_current r _ (currentEvent now r) rfl]
  have hcurge := currentEvent_ge now r hc hch.1 hcm.1
  have hpre : ∀ e ∈ assignHours r (annualPass now r.annualJitter
      (yearsBack now (stageEvents now matched r.stageJitter))
      (stageEvents now matched r.stageJitter)) ++ [currentEvent now r],
      e = currentEvent now r ∨
        (e.isCurrent = false ∧ e.date ≤ (dayOf now - 60) * 1440 + 1439) := by
    intro e he
    rcases List.mem_append.mp he with he | he
    · exact Or.inr (hprior e he)
    · simp only [List.mem_singleton] at he
      exact Or.inl he
  have hlt : ∀ e ∈ assignHours r (annualPass now r.annualJitter
      (yearsBack now (stageEvents now matched r.stageJitter))
      (stageEvents now matched r.stageJitter)) ++ [currentEvent now r],
      e ≠ currentEvent now r → e.date < (currentEvent now r).date := by
    intro e he hne
    rcases hpre e he with h | h
    · exact absurd h hne
    · linarith [h.2]
  have hsorted := List.sorted_insertionSort eventLE
    (assignHours r (annualPass now r.annualJitter
      (yearsBack now (stageEvents now matched r.stageJitter))
      (stageEvents now matched r.stageJitter)) ++ [currentEvent now r])
  have hperm := List.perm_insertionSort eventLE
    (assignHours r (annualPass now r.annualJitter
      (yearsBack now (stageEvents now matched r.stageJitter))
      (stageEvents now matched r.stageJitter)) ++ [currentEvent now r])
  have hcmem : currentEvent now r ∈ assignHours r (annualPass now r.annualJitter
      (yearsBack now (stageEvents now matched r.stageJitter))
      (stageEvents now matched r.stageJitter)) ++ [currentEvent now r] :=
    List.mem_append.mpr (Or.inr (List.mem_singleton.mpr rfl))
  refine ⟨by rw [hb]; exact hsorted, ?_, ?_⟩
  · rw [hb]
    apply sorted_getLast_eq _ _ hsorted (hperm.mem_iff.mpr hcmem)
    intro e he hne
    exact hlt e (hperm.mem_iff.mp he) hne
  · intro e he hef
    rw [hb] at he
    have hmem := hperm.mem_iff.mp he
    rcases hpre e hmem with h | h
    · rw [h] at hef
      simp [currentEvent] at hef
    · linarith [h.2]

theorem C1_timeline_sorted_current_last_witness :
    List.Sorted eventLE (build_timeline 0 [] timelineRandC) ∧
    (build_timeline 0 [] timelineRandC).getLast? =
      some (currentEvent 0 timelineRandC) ∧
    (∀ e ∈ build_timeline 0 [] timelineRandC, e.isCurrent = false →
      e.date < (currentEvent 0 timelineRandC).date) :=
  C1_timeline_sorted_current_last 0 [] timelineRandC
    (by simp)
    (fun _ => by show (-30 : ℤ) ≤ 0 ∧ (0 : ℤ) ≤ 30; norm_num)
    (fun _ => by show (-60 : ℤ) ≤ 0 ∧ (0 : ℤ) ≤ 60; norm_num)
    (by show (1 : ℤ) ≤ 1 ∧ (1 : ℤ) ≤ 14; norm_num)
    (by show (0 : ℤ) ≤ 8 ∧ (8 : ℤ) ≤ 23; norm_num)
    (by show (0 : ℤ) ≤ 0 ∧ (0 : ℤ) ≤ 59; norm_num)
    (fun _ => by show (0 : ℤ) ≤ 8 ∧ (8 : ℤ) ≤ 23; norm_num)
    (fun _ => by show (0 : ℤ) ≤ 0 ∧ (0 : ℤ) ≤ 59; norm_num)

/-- C1 counterexample: with the first two progression templates matched (as
the metabolic syndrome + cholelithiasis end-to-end scenario produces) and
in-range draws that give both templates the same jitter, two prior events
fall on the identical timestamp, so the timeline is not strictly ascending
as the claim requires. -/
theorem C1_counterexample :
    ¬ List.Pairwise (fun a b : TEvent => a.date < b.date)
      (build_timeline 0 (CONDITION_PROGRESSIONS.take 2) timelineRandC) := by
  decide

/-- C7 (amended): chart generation is a pure function of the seed (through
the seeded random stream), the other structured inputs, and the wall-clock
time now; two runs with identical inputs and identical invocation time
produce identical charts, field for field. Without fixing the wall clock
the claim fails: the generation timestamp differs (see the counterexample). -/
theorem C7_determinism_amended (rngOf : Option ℤ → TimelineRand)
    (rx : String → Option String) (backendName : String)
    (matched : List (String × List Stage)) (stateEvents : List StateEvent)
    (seed : Option ℤ) (now1 now2 : ℤ) (hnow : now1 = now2) :
    generate_from_parsed rngOf rx backendName matched stateEvents seed now1 =
      generate_from_parsed rngOf rx backendName matched stateEvents seed now2 := by
  rw [hnow]

theorem C7_determinism_amended_witness :
    generate_from_parsed (fun _ => timelineRandC) (fun _ => none) "stub" [] []
        none 0 =
      generate_from_parsed (fun _ => timelineRandC) (fun _ => none) "stub" [] []
        none 0 :=
  C7_determinism_amended (fun _ => timelineRandC) (fun _ => none) "stub" [] []
    none 0 0 rfl

/-- C7 counterexample: two runs with identical seed, backend and structured
inputs but different wall-clock instants produce charts that differ — the
stamped generation timestamp (datetime.now) is part of the output, so the
runs are not byte-identical as the claim states. -/
theorem C7_counterexample :
    generate_from_parsed (fun _ => timelineRandC) (fun _ => none) "stub" [] []
        none 0 ≠
      generate_from_parsed (fun _ => timelineRandC) (fun _ => none) "stub" [] []
        none 1440 ∧
    (generate_from_parsed (fun _ => timelineRandC) (fun _ => none) "stub" [] []
        none 0).generation_metadata.generation_timestamp = 0 ∧
    (generate_from_parsed (fun _ => timelineRandC) (fun _ => none) "stub" [] []
        none 1440).generation_metadata.generation_timestamp = 1440 := by
  refine ⟨?_, rfl, rfl⟩
  intro h
  have h2 := congrArg (fun c => c.generation_metadata.generation_timestamp) h
  simp only [generate_from_parsed] at h2
  exact absurd h2 (by norm_num)

/-- C8 (amended): every ordinary lab result stores the flag computed by
flag_lab_value from the full creation-time reference (so the claim holds for
those with the reference they were created from, criticals taking
precedence), and the derived eGFR results store the hard-coded flag "L" iff
the value is below 90 and None otherwise; that stored eGFR flag agrees with
recomputation from the stored 90-120 bounds exactly when the value does not
exceed 120 — an eGFR above 120 is stored unflagged although recomputation
from the stored bounds yields "H" (see the counterexample). -/
theorem C8_flag_consistency_amended :
    (∀ (name u : String) (v : ℝ) (ref : LabRef ℝ) (loinc : Option String),
      (mkLabResult name u v ref loinc).flag = flag_lab_value v (some ref)) ∧
    (∀ g : ℝ, (egfrResult g).flag = if g < 90 then some "L" else none) ∧
    (∀ g : ℝ, g ≤ 120 →
      (egfrResult g).flag = flag_lab_value g (some (storedRef (egfrResult g)))) := by
  refine ⟨fun name u v ref loinc => rfl, fun g => rfl, fun g hg => ?_⟩
  show (if g < 90 then some "L" else none) = _
  unfold storedRef egfrResult flag_lab_value critLowBreached critHighBreached
  by_cases h1 : g < 90
  · simp [h1]
  · have h2 : ¬ (120 : ℝ) < g := not_lt.mpr hg
    simp [h1, h2]

theorem C8_flag_consistency_amended_witness :
    (egfrResult 100).flag =
      flag_lab_value (100 : ℝ) (some (storedRef (egfrResult 100))) :=
  C8_flag_consistency_amended.2.2 100 (by norm_num)

theorem C8_counterexample_gfr_large :
    (120.1 : ℝ) ≤ calculate_gfr 0.3 18 "Male" := by
  have hml : (lowerStr "Male" = "female") = False := by
    simp only [eq_iff_iff, iff_false]
    decide
  have hmin : min ((0.3 : ℝ) / 0.9) 1.0 = (0.3 : ℝ) / 0.9 := by
    rw [min_eq_left]
    norm_num
  have hmax : max ((0.3 : ℝ) / 0.9) 1.0 = (1.0 : ℝ) := by
    rw [max_eq_right]
    norm_num
  have hEq : calculate_gfr 0.3 18 "Male" =
      round1 (142 * ((0.3 : ℝ) / 0.9) ^ (-0.302 : ℝ) *
        (1.0 : ℝ) ^ (-1.200 : ℝ) * (0.9938 : ℝ) ^ (18 : ℕ) * 1.0) := by
    simp only [calculate_gfr, hml, if_false, hmin, hmax]
  have hA : (1 : ℝ) < ((0.3 : ℝ) / 0.9) ^ (-0.302 : ℝ) := by
    rw [Real.one_lt_rpow_iff_of_pos (by norm_num)]
    right
    constructor <;> norm_num
  have hone : ((1.0 : ℝ)) ^ (-1.200 : ℝ) = 1 := by
    rw [show (1.0 : ℝ) = 1 by norm_num]
    exact Real.one_rpow _
  have hP : (0 : ℝ) < (0.9938 : ℝ) ^ (18 : ℕ) := by positivity
  have h142 : (120.05 : ℝ) < 142 * (0.9938 : ℝ) ^ (18 : ℕ) := by
    norm_num
  have hX : (120.05 : ℝ) < 142 * ((0.3 : ℝ) / 0.9) ^ (-0.302 : ℝ) *
      (1.0 : ℝ) ^ (-1.200 : ℝ) * (0.9938 : ℝ) ^ (18 : ℕ) * 1.0 := by
    rw [hone]
    nlinarith [hA, hP, h142]
  have hrhe : (1201 : ℤ) ≤ roundHalfEven (10 * (142 * ((0.3 : ℝ) / 0.9) ^ (-0.302 : ℝ) *
      (1.0 : ℝ) ^ (-1.200 : ℝ) * (0.9938 : ℝ) ^ (18 : ℕ) * 1.0)) := by
    have h := roundHalfEven_ge (K := ℝ) 1200 (10 * (142 * ((0.3 : ℝ) / 0.9) ^ (-0.302 : ℝ) *
      (1.0 : ℝ) ^ (-1.200 : ℝ) * (0.9938 : ℝ) ^ (18 : ℕ) * 1.0)) (by push_cast; linarith)
    omega
  rw [hEq]
  unfold round1
  have hcast : ((1201 : ℤ) : ℝ) ≤ (roundHalfEven (10 * (142 * ((0.3 : ℝ) / 0.9) ^ (-0.302 : ℝ) *
      (1.0 : ℝ) ^ (-1.200 : ℝ) * (0.9938 : ℝ) ^ (18 : ℕ) * 1.0)) : ℝ) :=
    Int.cast_le.mpr hrhe
  push_cast at hcast
  linarith

/-- C8 counterexample: a reachable derived eGFR result whose stored flag
does not equal the flag recomputed from its stored reference bounds. With
an externally supplied creatinine of 0.3 (accepted by the sanity check) for
an 18-year-old male, calculate_gfr exceeds 120; the result is stored
unflagged (flag is "L" only below 90), while flag_lab_value on the stored
90-120 bounds returns "H". -/
theorem C8_counterexample :
    (egfrResult (calculate_gfr 0.3 18 "Male")).flag = none ∧
    flag_lab_value (calculate_gfr 0.3 18 "Male")
      (some (storedRef (egfrResult (calculate_gfr 0.3 18 "Male")))) = some "H" := by
  have hge := C8_counterexample_gfr_large
  constructor
  · show (if calculate_gfr 0.3 18 "Male" < 90 then some "L" else none) = none
    rw [if_neg (by linarith)]
  · unfold flag_lab_value storedRef egfrResult critLowBreached critHighBreached
    have h1 : ¬ calculate_gfr 0.3 18 "Male" < 90 := by linarith
    have h2 : (120 : ℝ) < calculate_gfr 0.3 18 "Male" := by linarith
    simp [h1, h2]
